import Mathlib

/-!
Verification development for the `mps` experiment-design core.

The definitions below are a shallow embedding of `src/mps/exd/domains.py`
and `src/mps/exd/exd_core.py` (Python 2 semantics: `dict.iteritems`,
`time.clock`, strings without an `__iter__` attribute).  Python values that
can flow into the domain-membership tests are modelled by the inductive
`PyVal`; fallible Python code is modelled in `Except String`, the error
string naming the Python exception class that would be raised.
-/

set_option maxHeartbeats 1000000

deriving instance DecidableEq for Except

/-- Python values reaching the domain membership tests: ints, floats
(modelled as rationals), strings, and (possibly nested) lists. -/
inductive PyVal where
  | int : ℤ → PyVal
  | float : ℚ → PyVal
  | str : String → PyVal
  | list : List PyVal → PyVal

/-- Python `==` (Python 2): numbers compare by value across int/float,
strings by content, lists pointwise; values of different kinds are unequal. -/
def pyEq : PyVal → PyVal → Bool
  | .int a, .int b => a == b
  | .int a, .float b => (a : ℚ) == b
  | .float a, .int b => a == (b : ℚ)
  | .float a, .float b => a == b
  | .str a, .str b => a == b
  | .list a, .list b =>
    match a, b with
    | [], [] => true
    | x :: xs, y :: ys => pyEq x y && pyEq (.list xs) (.list ys)
    | _, _ => false
  | _, _ => false

/-- A numeric scalar (Python int or float). -/
def isNumScalar : PyVal → Bool
  | .int _ => true
  | .float _ => true
  | _ => false

/-- A Python int (the `isinstance(x, (int, np.int))` test of
`IntegralDomain.is_a_member`). -/
def isIntScalar : PyVal → Bool
  | .int _ => true
  | _ => false

/-- A Python list. -/
def isListVal : PyVal → Bool
  | .list _ => true
  | _ => false

/-- Numeric value of a scalar (0 for non-numerics; only used on numerics). -/
def toRat : PyVal → ℚ
  | .int n => (n : ℚ)
  | .float q => q
  | _ => 0

/-- All elements are lists of one common length (such a list of lists is
turned into a 2-d array by `np.array`). -/
def allListsSameLen : List PyVal → Bool
  | [] => true
  | .list l :: rest =>
    rest.all fun y => match y with
      | .list m => m.length == l.length
      | _ => false
  | _ :: _ => false

/-- Classification of `np.array(point)` as far as `is_within_bounds` can
observe it: a 1-d numeric array, a 1-d string array (numeric entries get
coerced to strings alongside string entries), a 1-d object array (ragged
nesting), or an array whose shape can never equal `(d,)` (0-d scalars and
arrays of dimension two or more). -/
inductive NpArr where
  | numeric : List ℚ → NpArr
  | strings : ℕ → NpArr
  | objects : ℕ → NpArr
  | other : NpArr

/-- Model of `np.array(point)` for the values of `PyVal`. -/
def npArray : PyVal → NpArr
  | .list xs =>
    if xs.any isListVal then
      if allListsSameLen xs then .other else .objects xs.length
    else if xs.all isNumScalar then .numeric (xs.map toRat)
    else .strings xs.length
  | _ => .other

/-- Shallow embedding of `is_within_bounds` (domains.py, lines 165-174).
The point is converted with `np.array`; a shape other than `(d,)` returns
`False`; on a matching shape, `bounds[:, 0]` raises `IndexError` when the
bounds array is empty (its numpy shape is then `(0,)`, not `(0, 2)`), and
the two arithmetic comparisons raise `TypeError` on non-numeric arrays.
The returned value is `all(point - lo >= 0) * all(hi - point >= 0)`;
`point - lo >= 0` is written below as `lo <= point`, and `hi - point >= 0`
as `point <= hi`. -/
def within_bounds_arr (bounds : List (ℚ × ℚ)) : NpArr → Except String Bool
  | .numeric xs =>
    if xs.length = bounds.length then
      match bounds with
      | [] => .error "IndexError"
      | _ :: _ =>
        .ok (((xs.zip bounds).all fun z => decide (z.2.1 ≤ z.1)) &&
             ((xs.zip bounds).all fun z => decide (z.1 ≤ z.2.2)))
    else .ok false
  | .strings n => if n = bounds.length then .error "TypeError" else .ok false
  | .objects n => if n = bounds.length then .error "TypeError" else .ok false
  | .other => .ok false

/-- Entry point of the source function: convert the point with `np.array`
and test the converted array against the bounds. -/
def is_within_bounds (bounds : List (ℚ × ℚ)) (point : PyVal) : Except String Bool :=
  within_bounds_arr bounds (npArray point)

/-- The five domain variants of domains.py.  Euclidean bounds are pairs of
reals (rationals here); integral bounds are pairs of integers
(`np.array(bounds, dtype=np.int)`). -/
inductive Domain where
  | universal : Domain
  | euclidean : List (ℚ × ℚ) → Domain
  | integral : List (ℤ × ℤ) → Domain
  | discrete : List PyVal → Domain
  | prodDiscrete : List (List PyVal) → Domain

/-- Integral bounds viewed as rational bounds for `is_within_bounds`. -/
def intBoundsToRat (bs : List (ℤ × ℤ)) : List (ℚ × ℚ) :=
  bs.map fun b => ((b.1 : ℚ), (b.2 : ℚ))

/-- Shallow embedding of `is_a_member` for each domain class.

* universal: always `True`;
* euclidean: `is_within_bounds(self.bounds, point)`;
* integral: `all(isinstance(x, (int, np.int)) for x in point) and
  is_within_bounds(...)` — iterating a numeric `point` raises `TypeError`;
  iterating a (Python 2) string yields its characters, so `all(are_ints)`
  holds only for the empty string; `and` short-circuits to `False`
  otherwise;
* discrete: `point in self.list_of_items`;
* prod_discrete: `False` unless `point` has `__iter__` (Python 2 ints,
  floats and strings do not) and has length `self.dim`, else the pointwise
  conjunction of factor memberships. -/
def Domain.is_a_member : Domain → PyVal → Except String Bool
  | .universal, _ => .ok true
  | .euclidean bounds, p => is_within_bounds bounds p
  | .integral bounds, p =>
    match p with
    | .int _ => .error "TypeError"
    | .float _ => .error "TypeError"
    | .str s =>
      if s.isEmpty then is_within_bounds (intBoundsToRat bounds) (.str s)
      else .ok false
    | .list xs =>
      if xs.all isIntScalar then is_within_bounds (intBoundsToRat bounds) (.list xs)
      else .ok false
  | .discrete items, p => .ok (items.any fun it => pyEq p it)
  | .prodDiscrete lls, p =>
    match p with
    | .list xs =>
      if xs.length = lls.length then
        .ok ((xs.zip lls).all fun z => z.2.any fun it => pyEq z.1 it)
      else .ok false
    | _ => .ok false

/-- Inputs on which no membership test can raise: everything for the
universal, discrete and prod_discrete domains; for the euclidean domain any
non-list plus numeric vectors over non-empty bounds; for the integral
domain any string, plus any list over non-empty bounds. -/
def safe_member_input : Domain → PyVal → Bool
  | .universal, _ => true
  | .discrete _, _ => true
  | .prodDiscrete _, _ => true
  | .euclidean bounds, p =>
    match p with
    | .list xs => !bounds.isEmpty && xs.all isNumScalar
    | _ => true
  | .integral bounds, p =>
    match p with
    | .list _ => !bounds.isEmpty
    | .str _ => true
    | _ => false

/-- Membership condition for a euclidean domain in the words of the spec: a
real vector of matching dimension whose coordinates lie within the
inclusive bounds. -/
def euclidean_member_spec (bounds : List (ℚ × ℚ)) (p : PyVal) : Bool :=
  match p with
  | .list xs =>
    xs.all isNumScalar && (xs.length == bounds.length) &&
    (((xs.map toRat).zip bounds).all fun z =>
      decide (z.2.1 ≤ z.1) && decide (z.1 ≤ z.2.2))
  | _ => false

-- Sanity checks against the worked examples of the spec (scenario 5).
example : (Domain.euclidean [(0, 1), (-1, 1)]).is_a_member
    (.list [.float (Rat.divInt 1 2), .float 0]) = .ok true := by decide
example : (Domain.euclidean [(0, 1), (-1, 1)]).is_a_member
    (.list [.float 1, .float 1]) = .ok true := by decide
example : (Domain.euclidean [(0, 1), (-1, 1)]).is_a_member
    (.list [.float (Rat.divInt 10001 10000), .float 0]) = .ok false := by decide
example : (Domain.euclidean [(0, 1), (-1, 1)]).is_a_member
    (.list [.float (Rat.divInt 1 2)]) = .ok false := by decide
example : (Domain.integral [(0, 3)]).is_a_member (.list [.int 2]) = .ok true := by decide
example : (Domain.integral [(0, 3)]).is_a_member (.list [.float (Rat.divInt 5 2)]) = .ok false := by decide
example : (Domain.integral [(0, 3)]).is_a_member (.list [.int 4]) = .ok false := by decide

/-! Helper lemmas about the numpy conversion. -/

theorem all_and_split {α : Type} (l : List α) (p q : α → Bool) :
    (l.all fun x => p x && q x) = (l.all p && l.all q) := by
  induction l with
  | nil => rfl
  | cons a t ih =>
    simp only [List.all_cons, ih]
    cases p a <;> cases q a <;> cases t.all p <;> cases t.all q <;> rfl

theorem any_isListVal_of_all_isNumScalar {xs : List PyVal}
    (h : xs.all isNumScalar = true) : xs.any isListVal = false := by
  induction xs with
  | nil => rfl
  | cons a t ih =>
    simp only [List.all_cons, Bool.and_eq_true] at h
    simp only [List.any_cons, ih h.2, Bool.or_false]
    cases a <;> simp_all [isNumScalar, isListVal]

theorem all_isNumScalar_of_all_isIntScalar {xs : List PyVal}
    (h : xs.all isIntScalar = true) : xs.all isNumScalar = true := by
  induction xs with
  | nil => rfl
  | cons a t ih =>
    simp only [List.all_cons, Bool.and_eq_true] at h ⊢
    refine ⟨?_, ih h.2⟩
    cases a <;> simp_all [isIntScalar, isNumScalar]

theorem npArray_of_all_num {xs : List PyVal} (h : xs.all isNumScalar = true) :
    npArray (.list xs) = .numeric (xs.map toRat) := by
  simp [npArray, any_isListVal_of_all_isNumScalar h, h]

theorem intBoundsToRat_length (bs : List (ℤ × ℤ)) :
    (intBoundsToRat bs).length = bs.length := by
  simp [intBoundsToRat]

theorem intBoundsToRat_ne_nil {bs : List (ℤ × ℤ)} (h : bs ≠ []) :
    intBoundsToRat bs ≠ [] := by
  cases bs with
  | nil => exact absurd rfl h
  | cons b t => simp [intBoundsToRat]

theorem within_bounds_arr_numeric_total (bounds : List (ℚ × ℚ)) (xs : List ℚ)
    (hne : bounds ≠ []) : ∃ b, within_bounds_arr bounds (.numeric xs) = .ok b := by
  unfold within_bounds_arr
  by_cases hlen : xs.length = bounds.length
  · cases bounds with
    | nil => exact absurd rfl hne
    | cons b bs => simp [hlen]
  · simp [hlen]

/-- C2 (counterexample): the integral-domain membership test is not total:
iterating a non-sequence point (here the Python int `5`) raises
`TypeError` instead of returning `False`. -/
theorem c2_integral_member_raises :
    (Domain.integral [(0, 3)]).is_a_member (PyVal.int 5) = .error "TypeError" := rfl

/-- C2 (amended): membership is total for the universal, discrete and
prod_discrete domains on every input, and for the euclidean and integral
domains on every safe input (any non-sequence point for euclidean, numeric
vectors over non-empty euclidean bounds, strings and arbitrary lists over
non-empty integral bounds); moreover a numeric vector of the wrong
dimension is rejected with `False` and no error.  Outside the safe inputs
the test can raise: the integral domain raises `TypeError` on numeric
scalars, and euclidean/integral raise on dimension-matching sequences with
non-numeric entries and on empty bounds with a shape-matching point. -/
theorem c2_is_a_member_total_on_safe_inputs :
    (∀ (d : Domain) (p : PyVal), safe_member_input d p = true →
      ∃ b, d.is_a_member p = .ok b) ∧
    (∀ (bounds : List (ℚ × ℚ)) (xs : List PyVal), xs.all isNumScalar = true →
      xs.length ≠ bounds.length →
      (Domain.euclidean bounds).is_a_member (.list xs) = .ok false) := by
  constructor
  · intro d p hsafe
    cases d with
    | universal => exact ⟨true, rfl⟩
    | discrete items => exact ⟨_, rfl⟩
    | prodDiscrete lls =>
      cases p with
      | list xs =>
        simp only [Domain.is_a_member]
        by_cases hlen : xs.length = lls.length <;> simp [hlen]
      | int n => exact ⟨false, rfl⟩
      | float q => exact ⟨false, rfl⟩
      | str s => exact ⟨false, rfl⟩
    | euclidean bounds =>
      cases p with
      | list xs =>
        simp only [safe_member_input, Bool.and_eq_true, Bool.not_eq_true',
          List.isEmpty_eq_false] at hsafe
        simp only [Domain.is_a_member, is_within_bounds, npArray_of_all_num hsafe.2]
        exact within_bounds_arr_numeric_total _ _ hsafe.1
      | int n => exact ⟨false, rfl⟩
      | float q => exact ⟨false, rfl⟩
      | str s => exact ⟨false, rfl⟩
    | integral bounds =>
      cases p with
      | int n => simp [safe_member_input] at hsafe
      | float q => simp [safe_member_input] at hsafe
      | str s =>
        simp only [Domain.is_a_member]
        by_cases hemp : s.isEmpty <;>
          simp [hemp, is_within_bounds, npArray, within_bounds_arr]
      | list xs =>
        simp only [safe_member_input, Bool.not_eq_true',
          List.isEmpty_eq_false] at hsafe
        simp only [Domain.is_a_member]
        by_cases hint : xs.all isIntScalar = true
        · simp only [hint, if_true]
          rw [is_within_bounds, npArray_of_all_num (all_isNumScalar_of_all_isIntScalar hint)]
          exact within_bounds_arr_numeric_total _ _ (intBoundsToRat_ne_nil hsafe)
        · rw [if_neg hint]
          exact ⟨false, rfl⟩
  · intro bounds xs hnum hlen
    simp only [Domain.is_a_member, is_within_bounds, npArray_of_all_num hnum,
      within_bounds_arr]
    rw [if_neg (by simpa using hlen)]

/-- C2 witness: the integral test succeeds on an in-range integer vector,
and the euclidean test rejects a wrong-dimension numeric vector with
`False` and no error. -/
theorem c2_is_a_member_total_on_safe_inputs_witness :
    (∃ b, (Domain.integral [(0, 3)]).is_a_member (.list [.int 2]) = .ok b) ∧
    (Domain.euclidean [(0, 1)]).is_a_member (.list [.int 0, .int 0]) = .ok false :=
  ⟨c2_is_a_member_total_on_safe_inputs.1 (Domain.integral [(0, 3)])
      (.list [.int 2]) (by decide),
   c2_is_a_member_total_on_safe_inputs.2 [(0, 1)] [.int 0, .int 0]
      (by decide) (by decide)⟩

/-- C7 (counterexample): with zero bound rows the membership test does not
return true on the (degenerate) matching real vector `[]`: converting the
empty bounds list with `np.array` gives a 1-d empty array, so `bounds[:, 0]`
raises `IndexError`, although the spec-side membership condition holds. -/
theorem c7_empty_bounds_counterexample :
    euclidean_member_spec [] (PyVal.list []) = true ∧
    (Domain.euclidean []).is_a_member (PyVal.list []) = .error "IndexError" :=
  ⟨rfl, rfl⟩

/-- C7 (amended): for every euclidean domain with at least one bound row
and every input point, `is_a_member` returns true exactly when the point is
a real vector whose length equals the number of bound rows and whose every
coordinate lies within the corresponding inclusive bounds. -/
theorem c7_euclidean_member_iff (bounds : List (ℚ × ℚ)) (p : PyVal)
    (hne : bounds ≠ []) :
    (Domain.euclidean bounds).is_a_member p = .ok true ↔
      euclidean_member_spec bounds p = true := by
  cases p with
  | int n => simp [Domain.is_a_member, is_within_bounds, npArray,
      within_bounds_arr, euclidean_member_spec]
  | float q => simp [Domain.is_a_member, is_within_bounds, npArray,
      within_bounds_arr, euclidean_member_spec]
  | str s => simp [Domain.is_a_member, is_within_bounds, npArray,
      within_bounds_arr, euclidean_member_spec]
  | list xs =>
    simp only [Domain.is_a_member, is_within_bounds, euclidean_member_spec]
    by_cases hl : xs.any isListVal = true
    · have hnum : xs.all isNumScalar = false := by
        cases hn : xs.all isNumScalar with
        | false => rfl
        | true => rw [any_isListVal_of_all_isNumScalar hn] at hl; cases hl
      rw [npArray]
      simp only [hl, if_true, hnum, Bool.false_and, Bool.and_eq_true]
      by_cases hsame : allListsSameLen xs = true <;>
        by_cases hlen : xs.length = bounds.length <;>
          simp [hsame, hlen, within_bounds_arr]
    · have hl' : xs.any isListVal = false := by
        cases h : xs.any isListVal with
        | false => rfl
        | true => exact absurd h hl
      by_cases hnum : xs.all isNumScalar = true
      · rw [npArray_of_all_num hnum]
        by_cases hlen : (xs.map toRat).length = bounds.length
        · cases bounds with
          | nil => exact absurd rfl hne
          | cons b bs =>
            simp only [within_bounds_arr, hlen, if_true]
            rw [all_and_split]
            simp only [Except.ok.injEq, hnum, Bool.true_and, Bool.and_eq_true,
              beq_iff_eq]
            constructor
            · intro h
              have hx : xs.length = (b :: bs).length := by
                simpa using hlen
              exact ⟨hx, h.1, h.2⟩
            · intro h
              exact ⟨h.2.1, h.2.2⟩
        · simp only [within_bounds_arr, hlen, if_false]
          have hx : ¬(xs.length == bounds.length) = true := by
            simpa using fun hc => hlen (by simpa using hc)
          simp [hx]
      · rw [npArray]
        simp only [hl', if_false]
        have hnum' : xs.all isNumScalar = false := by
          cases h : xs.all isNumScalar with
          | false => rfl
          | true => exact absurd h hnum
        simp only [hnum', if_false]
        by_cases hlen : xs.length = bounds.length <;>
          simp [hlen, within_bounds_arr, hnum']

/-- C7 witness: concrete evaluation of the equivalence on the spec's
two-dimensional example domain. -/
theorem c7_euclidean_member_iff_witness :
    (Domain.euclidean [(0, 1), (-1, 1)]).is_a_member
        (.list [.int 0, .int 0]) = .ok true ↔
      euclidean_member_spec [(0, 1), (-1, 1)] (.list [.int 0, .int 0]) = true :=
  c7_euclidean_member_iff [(0, 1), (-1, 1)] (.list [.int 0, .int 0]) (by decide)

/-!
Dispatch bookkeeping (exd_core.py).  `DispatchState` carries the pieces of
designer state that the dispatch paths touch: `step_idx` and the two
parallel in-progress sequences.  `initial_query_dispatch` models one turn
of the loop in `perform_initial_queries` (lines 263-266: `step_idx += 1`
happens before the dispatch stamps `qinfo.step_idx = self.step_idx`), and
`asynchronous_routine_dispatch` models `_asynchronous_run_experiment_routine`
(lines 444-451: the dispatch stamps the current `step_idx`, then
`step_idx += 1`).  Completions run `_remove_from_in_progress`.
-/

structure DispatchState where
  step_idx : ℤ
  eval_idxs_in_progress : List ℤ
  eval_points_in_progress : List PyVal

/-- Python `list.index(x)`: position of the first occurrence, `ValueError`
if absent. -/
def py_list_index (l : List ℤ) (x : ℤ) : Except String ℕ :=
  match l with
  | [] => .error "ValueError"
  | a :: rest => if a = x then .ok 0 else (py_list_index rest x).map (· + 1)

/-- Shallow embedding of `_remove_from_in_progress` (exd_core.py, lines
352-356): look up the first occurrence of the completed step index and pop
the pair at that position from both sequences. -/
def remove_from_in_progress (s : DispatchState) (sidx : ℤ) :
    Except String DispatchState :=
  match py_list_index s.eval_idxs_in_progress sidx with
  | .error e => .error e
  | .ok k =>
    .ok { s with eval_idxs_in_progress := s.eval_idxs_in_progress.eraseIdx k,
                 eval_points_in_progress := s.eval_points_in_progress.eraseIdx k }

/-- Shallow embedding of `_add_to_in_progress` for a single qinfo. -/
def add_to_in_progress (s : DispatchState) (sidx : ℤ) (pt : PyVal) :
    DispatchState :=
  { s with eval_idxs_in_progress := s.eval_idxs_in_progress ++ [sidx],
           eval_points_in_progress := s.eval_points_in_progress ++ [pt] }

/-- Shallow embedding of `_dispatch_single_experiment_to_worker_manager`:
the qinfo is stamped with the current `step_idx` and added to in-progress. -/
def dispatch_single_experiment (s : DispatchState) (pt : PyVal) : DispatchState :=
  add_to_in_progress s s.step_idx pt

/-- One turn of the dispatch loop of `perform_initial_queries`:
`step_idx += 1`, then dispatch. -/
def initial_query_dispatch (s : DispatchState) (pt : PyVal) : DispatchState :=
  dispatch_single_experiment { s with step_idx := s.step_idx + 1 } pt

/-- The dispatch part of `_asynchronous_run_experiment_routine`: dispatch
with the current `step_idx`, then `step_idx += 1`. -/
def asynchronous_routine_dispatch (s : DispatchState) (pt : PyVal) : DispatchState :=
  let t := dispatch_single_experiment s pt
  { t with step_idx := t.step_idx + 1 }

/-- Driver-visible events that mutate the dispatch state: an initial-query
dispatch, an asynchronous-routine dispatch, or a drained completion. -/
inductive DispatchEvent where
  | initialQuery : PyVal → DispatchEvent
  | asyncQuery : PyVal → DispatchEvent
  | completion : ℤ → DispatchEvent

def dispatch_step (s : DispatchState) : DispatchEvent → Except String DispatchState
  | .initialQuery pt => .ok (initial_query_dispatch s pt)
  | .asyncQuery pt => .ok (asynchronous_routine_dispatch s pt)
  | .completion sidx => remove_from_in_progress s sidx

def run_dispatch (s : DispatchState) (evs : List DispatchEvent) :
    Except String DispatchState :=
  evs.foldlM dispatch_step s

/-- C1 (code bug): the initial-query loop increments `step_idx` before the
dispatch stamps it while the asynchronous routine increments after, so the
step index of the last initial query is assigned again to the first
asynchronous query.  Trace: two workers, two initial queries (step
indices 1 and 2), the first completes, one asynchronous dispatch; the
in-progress index sequence ends as `[2, 2]`, not pairwise distinct (the
two lengths do stay equal). -/
theorem c1_duplicate_step_idx_trace :
    run_dispatch ⟨0, [], []⟩
      [.initialQuery (.int 10), .initialQuery (.int 20), .completion 1,
       .asyncQuery (.int 30)] =
      .ok ⟨3, [2, 2], [.int 20, .int 30]⟩ ∧
    ¬ ([(2 : ℤ), 2].Nodup) :=
  ⟨rfl, by decide⟩

/-! Lemmas for the removal step. -/

theorem py_list_index_not_mem {l : List ℤ} {x : ℤ} (h : x ∉ l) :
    py_list_index l x = .error "ValueError" := by
  induction l with
  | nil => rfl
  | cons a t ih =>
    have ha : ¬(a = x) := fun hc => h (by rw [← hc]; exact List.mem_cons_self a t)
    have ht : x ∉ t := fun hm => h (List.mem_cons_of_mem a hm)
    simp [py_list_index, ha, ih ht, Except.map]

theorem py_list_index_first {l1 l2 : List ℤ} {x : ℤ} (h : x ∉ l1) :
    py_list_index (l1 ++ x :: l2) x = .ok l1.length := by
  induction l1 with
  | nil => simp [py_list_index]
  | cons a t ih =>
    have ha : ¬(a = x) := fun hc => h (by rw [← hc]; exact List.mem_cons_self a t)
    have ht : x ∉ t := fun hm => h (List.mem_cons_of_mem a hm)
    simp [py_list_index, ha, ih ht, Except.map]

theorem eraseIdx_at_append_len {α : Type} (l1 l2 : List α) (x : α) {n : ℕ}
    (h : n = l1.length) : (l1 ++ x :: l2).eraseIdx n = l1 ++ l2 := by
  subst h
  induction l1 with
  | nil => rfl
  | cons a t ih => simpa [List.eraseIdx] using ih

/-- C8 (counterexample): with the step index `1` twice in progress, the
remove step silently pops the first occurrence instead of failing. -/
theorem c8_duplicate_removed_silently :
    remove_from_in_progress ⟨5, [1, 1], [.int 7, .int 8]⟩ 1 =
      .ok ⟨5, [1], [.int 8]⟩ := rfl

/-- C8 (amended): the remove step raises `ValueError` when the completed
step index is absent; when the step index occurs (once or several times),
the pair at its first occurrence is removed silently — in particular, when
it occurs exactly once the matching index/point pair is removed, but
duplicate step indices are not detected. -/
theorem c8_remove_first_occurrence :
    (∀ (s : DispatchState) (sidx : ℤ), sidx ∉ s.eval_idxs_in_progress →
      remove_from_in_progress s sidx = .error "ValueError") ∧
    (∀ (step : ℤ) (l1 l2 : List ℤ) (p1 p2 : List PyVal) (sidx : ℤ) (pt : PyVal),
      sidx ∉ l1 → l1.length = p1.length →
      remove_from_in_progress ⟨step, l1 ++ sidx :: l2, p1 ++ pt :: p2⟩ sidx =
        .ok ⟨step, l1 ++ l2, p1 ++ p2⟩) := by
  constructor
  · intro s sidx h
    simp [remove_from_in_progress, py_list_index_not_mem h]
  · intro step l1 l2 p1 p2 sidx pt h1 hlen
    simp only [remove_from_in_progress, py_list_index_first h1]
    rw [eraseIdx_at_append_len l1 l2 sidx rfl, eraseIdx_at_append_len p1 p2 pt hlen]

/-- C8 witness: concrete removal with an absent index and with a unique
index. -/
theorem c8_remove_first_occurrence_witness :
    remove_from_in_progress ⟨0, [5], [.int 0]⟩ 3 = .error "ValueError" ∧
    remove_from_in_progress ⟨0, [4] ++ 5 :: [6], [.int 40] ++ .int 50 :: [.int 60]⟩ 5 =
      .ok ⟨0, [4] ++ [6], [.int 40] ++ [.int 60]⟩ :=
  ⟨c8_remove_first_occurrence.1 ⟨0, [5], [.int 0]⟩ 3 (by decide),
   c8_remove_first_occurrence.2 0 [4] [6] [.int 40] [.int 60] 5 (.int 50)
     (by decide) rfl⟩

/-!
Capital accounting (exd_core.py, lines 278-294, 382-388, 420-441).  The
capital-type option is a string; clock samples (`time.clock() - stamp`,
`time.time() - stamp`) enter the model as explicit rational arguments.
-/

/-- Capital bookkeeping attributes; `none` models an attribute that was
never set on `self`. -/
structure CapState where
  spent_capital : Option ℚ
  init_cpu_time_stamp : Option ℚ
  init_real_time_stamp : Option ℚ

/-- Shallow embedding of `initialise_capital` (lines 278-285): an
`if`/`elif`/`elif` chain with no `else`, so an unrecognised capital type
sets nothing and raises nothing. -/
def initialise_capital (capital_type : String) (cpu_stamp real_stamp : ℚ) :
    Except String CapState :=
  if capital_type = "return_value" then .ok ⟨some 0, none, none⟩
  else if capital_type = "cputime" then .ok ⟨none, some cpu_stamp, none⟩
  else if capital_type = "realtime" then .ok ⟨none, none, some real_stamp⟩
  else .ok ⟨none, none, none⟩

/-- Shallow embedding of `get_curr_spent_capital` (lines 287-294): reading
an attribute that `initialise_capital` never set raises `AttributeError`;
an unrecognised capital type falls through every branch and returns Python
`None`. -/
def get_curr_spent_capital (capital_type : String) (s : CapState)
    (cpu_now real_now : ℚ) : Except String (Option ℚ) :=
  if capital_type = "return_value" then
    match s.spent_capital with
    | some v => .ok (some v)
    | none => .error "AttributeError"
  else if capital_type = "cputime" then
    match s.init_cpu_time_stamp with
    | some t => .ok (some (cpu_now - t))
    | none => .error "AttributeError"
  else if capital_type = "realtime" then
    match s.init_real_time_stamp with
    | some t => .ok (some (real_now - t))
    | none => .error "AttributeError"
  else .ok none

/-- C4 (counterexample): with the out-of-enum capital type "bogus",
`initialise_capital` returns normally with nothing set — initialisation
does not fail fatally. -/
theorem c4_unknown_capital_type_accepted :
    initialise_capital "bogus" 0 0 = .ok ⟨none, none, none⟩ := rfl

/-- C4 (amended): an out-of-enum capital_type is accepted silently:
`initialise_capital` sets no capital attribute and raises nothing, and
`get_curr_spent_capital` then returns Python `None` rather than raising. -/
theorem c4_unknown_capital_type_silent (capital_type : String)
    (cpu_stamp real_stamp cpu_now real_now : ℚ)
    (h1 : capital_type ≠ "return_value") (h2 : capital_type ≠ "cputime")
    (h3 : capital_type ≠ "realtime") :
    initialise_capital capital_type cpu_stamp real_stamp = .ok ⟨none, none, none⟩ ∧
    get_curr_spent_capital capital_type ⟨none, none, none⟩ cpu_now real_now =
      .ok none := by
  constructor
  · simp [initialise_capital, h1, h2, h3]
  · simp [get_curr_spent_capital, h1, h2, h3]

/-- C4 witness: the amended behaviour at the concrete capital type
"bogus". -/
theorem c4_unknown_capital_type_silent_witness :
    initialise_capital "bogus" 1 2 = .ok ⟨none, none, none⟩ ∧
    get_curr_spent_capital "bogus" ⟨none, none, none⟩ 3 4 = .ok none :=
  c4_unknown_capital_type_silent "bogus" 1 2 3 4 (by decide) (by decide) (by decide)

/-- Shallow embedding of `_terminate_now` (lines 382-388): the returned
pair carries the boolean decision and the lines written to the reporter
(the "Exceeded ... Terminating Now!" message). -/
def terminate_now (step_idx : ℤ) (max_num_steps available_capital spent : ℚ) :
    Bool × List String :=
  if (step_idx : ℚ) ≥ max_num_steps then
    (true, ["Exceeded max_num_steps evaluations. Terminating Now!"])
  else (decide (spent ≥ available_capital), [])

/-- C6 (confirmed): `_terminate_now` returns true exactly when the step
index has reached `max_num_steps` (in which case, and only then, an
exceeded message is logged) or the spent capital has reached the available
capital. -/
theorem c6_terminate_now_iff (step_idx : ℤ)
    (max_num_steps available_capital spent : ℚ) :
    ((terminate_now step_idx max_num_steps available_capital spent).1 = true ↔
      ((step_idx : ℚ) ≥ max_num_steps ∨ spent ≥ available_capital)) ∧
    ((terminate_now step_idx max_num_steps available_capital spent).2 ≠ [] ↔
      (step_idx : ℚ) ≥ max_num_steps) := by
  unfold terminate_now
  by_cases h : (step_idx : ℚ) ≥ max_num_steps
  · simp [h]
  · simp [h]

/-- Incoming qinfo fields read by `_update_capital`. -/
structure CapQInfo where
  send_time : ℚ
  eval_time : ℚ

/-- Python 2 iteration over an int: `for idx in len(qinfos)` (exd_core.py,
line 425) raises `TypeError` — the source omits `range(...)`. -/
def pyIterOverInt (_n : ℕ) : Except String (List ℕ) :=
  .error "TypeError"

/-- Python `lst[idx] = v` on a list: `IndexError` when `idx` is out of
range (`query_receive_times` starts empty, so every such assignment in the
source would be out of range even under an intended `range(len(qinfos))`). -/
def pyListAssign (l : List ℚ) (idx : ℕ) (v : ℚ) : Except String (List ℚ) :=
  if idx < l.length then .ok (l.set idx v) else .error "IndexError"

/-- Python `lst[idx]` read. -/
def pyListRead (l : List CapQInfo) (idx : ℕ) : Except String CapQInfo :=
  match l.get? idx with
  | some q => .ok q
  | none => .error "IndexError"

/-- Shallow embedding of `_update_capital` (exd_core.py, lines 420-441):
iterate `for idx in len(qinfos)` (which raises before the first loop turn),
compute each receive time per capital mode, assign it into
`query_receive_times[idx]`, recompute `eval_time = receive - send`,
raise `ValueError` on a negative result, and finally return
`max(query_receive_times)`.  Everything after the first line is dead code
in the source; it is kept here to mirror the loop body. -/
def update_capital (capital_type : String) (cpu_now real_now : ℚ)
    (qinfos : List CapQInfo) : Except String ℚ := do
  let idxs ← pyIterOverInt qinfos.length
  let times ← idxs.foldlM (fun (times : List ℚ) idx => do
    let q ← pyListRead qinfos idx
    let rt ←
      if capital_type = "return_value" then pure (q.send_time + q.eval_time)
      else if capital_type = "cputime" then pure cpu_now
      else if capital_type = "realtime" then pure real_now
      else .error "IndexError"
    let times2 ← pyListAssign times idx rt
    if rt - q.send_time < 0 then .error "ValueError" else pure times2) []
  match times.max? with
  | some m => .ok m
  | none => .error "ValueError"

/-- C3 (code bug): `_update_capital` never reaches its loop body: the
statement `for idx in len(qinfos)` iterates over an int and raises
`TypeError` on every call, so no receive time is written and no maximum is
returned. -/
theorem c3_update_capital_always_raises (capital_type : String)
    (cpu_now real_now : ℚ) (qinfos : List CapQInfo) :
    update_capital capital_type cpu_now real_now qinfos = .error "TypeError" := rfl

/-!
Multi-fidelity set-up (exd_core.py, lines 129-147).  `_set_up` runs
`_mf_set_up` when the policy or the experiment caller declares
multi-fidelity; `_mf_set_up` begins with `assert
self.experiment_caller.is_mf()`.
-/

/-- The base field-to-history mapping registered by `_set_up`
(lines 111-120). -/
def to_copy_from_qinfo_to_history : List (String × String) :=
  [("step_idx", "query_step_idxs"),
   ("point", "query_points"),
   ("val", "query_vals"),
   ("true_val", "query_true_vals"),
   ("send_time", "query_send_times"),
   ("receive_time", "query_receive_times"),
   ("eval_time", "query_eval_times"),
   ("worker_id", "query_worker_ids")]

/-- Outcome of the multi-fidelity part of `_set_up`: the two optional
multi-fidelity history columns (`none` models an attribute never created),
the field-to-history mapping after set-up, and the `prev_eval_fidels`
list. -/
structure MFSetUp where
  query_fidels : Option (List PyVal)
  query_cost_at_fidels : Option (List ℚ)
  to_copy : List (String × String)
  prev_eval_fidels : Option (List PyVal)

/-- Shallow embedding of `_mf_set_up` (lines 136-147): asserts the caller
is multi-fidelity, then creates the two history columns, extends the
field-to-history mapping with `fidel` and `cost_at_fidel`, and initialises
`prev_eval_fidels`. -/
def mf_set_up (caller_is_mf : Bool) : Except String MFSetUp :=
  if caller_is_mf then
    .ok ⟨some [], some [],
      to_copy_from_qinfo_to_history ++
        [("fidel", "query_fidels"), ("cost_at_fidel", "query_cost_at_fidels")],
      some []⟩
  else .error "AssertionError"

/-- The multi-fidelity branch of `_set_up` (lines 129-131): run
`_mf_set_up` when the policy or the caller declares multi-fidelity,
otherwise leave the base mapping and create no multi-fidelity columns. -/
def set_up_mf_branch (is_an_mf_policy caller_is_mf : Bool) :
    Except String MFSetUp :=
  if is_an_mf_policy || caller_is_mf then mf_set_up caller_is_mf
  else .ok ⟨none, none, to_copy_from_qinfo_to_history, none⟩

/-- C9 (counterexample): with a multi-fidelity policy over a
non-multi-fidelity experiment caller, `_set_up` enters `_mf_set_up`, whose
first statement `assert self.experiment_caller.is_mf()` fails — set-up does
not complete. -/
theorem c9_mf_policy_without_mf_caller_raises :
    set_up_mf_branch true false = .error "AssertionError" := rfl

/-- C9 (amended): the multi-fidelity set-up runs whenever the policy or
the caller declares multi-fidelity, but it asserts that the caller is
multi-fidelity: when the caller declares multi-fidelity the history
sub-fields and extended mapping are initialised and set-up completes;
when only the policy declares it, set-up fails with an assertion error. -/
theorem c9_mf_set_up_requires_mf_caller (is_an_mf_policy caller_is_mf : Bool) :
    (caller_is_mf = true →
      set_up_mf_branch is_an_mf_policy caller_is_mf =
        .ok ⟨some [], some [],
          to_copy_from_qinfo_to_history ++
            [("fidel", "query_fidels"), ("cost_at_fidel", "query_cost_at_fidels")],
          some []⟩) ∧
    (is_an_mf_policy = true → caller_is_mf = false →
      set_up_mf_branch is_an_mf_policy caller_is_mf = .error "AssertionError") := by
  constructor
  · intro hc
    subst hc
    cases is_an_mf_policy <;> rfl
  · intro hp hc
    subst hp; subst hc
    rfl

/-- C9 witness: both branches of the amended statement at concrete
flags. -/
theorem c9_mf_set_up_requires_mf_caller_witness :
    set_up_mf_branch true true =
      .ok ⟨some [], some [],
        to_copy_from_qinfo_to_history ++
          [("fidel", "query_fidels"), ("cost_at_fidel", "query_cost_at_fidels")],
        some []⟩ ∧
    set_up_mf_branch true false = .error "AssertionError" :=
  ⟨(c9_mf_set_up_requires_mf_caller true true).1 rfl,
   (c9_mf_set_up_requires_mf_caller true false).2 rfl rfl⟩

/-!
History bookkeeping (`_update_history`, exd_core.py lines 175-189, and the
history namespace set up at lines 96-120).
-/

/-- Modelled from the spec: `EVAL_ERROR_CODE` is imported from
`exd.exd_utils`, which is not under src/; the spec describes it only as a
distinguished sentinel published by the experiment caller, so query values
are modelled as either that sentinel or an ordinary numeric value. -/
inductive QVal where
  | evalError : QVal
  | num : ℚ → QVal
  deriving DecidableEq

/-- A qinfo as `_update_history` sees it; `none` models a missing
attribute (reading it raises `AttributeError`). -/
structure QInfo where
  step_idx : Option ℤ
  point : Option PyVal
  val : Option QVal
  true_val : Option QVal
  send_time : Option ℚ
  receive_time : Option ℚ
  eval_time : Option ℚ
  worker_id : Option ℕ

/-- All eight registered fields are present. -/
def QInfo.isComplete (q : QInfo) : Bool :=
  q.step_idx.isSome && q.point.isSome && q.val.isSome && q.true_val.isSome &&
    q.send_time.isSome && q.receive_time.isSome && q.eval_time.isSome &&
    q.worker_id.isSome

/-- The history namespace columns touched by `_update_history`. -/
structure History where
  query_step_idxs : List ℤ
  query_points : List PyVal
  query_vals : List QVal
  query_true_vals : List QVal
  query_send_times : List ℚ
  query_receive_times : List ℚ
  query_eval_times : List ℚ
  query_worker_ids : List ℕ
  query_qinfos : List QInfo
  job_idxs_of_workers : List (ℕ × List ℤ)

/-- The designer state `_update_history` mutates: the history plus
`num_succ_queries`. -/
structure BookKeeping where
  history : History
  num_succ_queries : ℕ

/-- Python `d[k]` on the worker dict: `KeyError` when the worker identity
was not a key at set-up time. -/
def dict_get (d : List (ℕ × List ℤ)) (k : ℕ) : Except String (List ℤ) :=
  match d.find? (fun kv => kv.1 == k) with
  | some kv => .ok kv.2
  | none => .error "KeyError"

def dict_has_key (d : List (ℕ × List ℤ)) (k : ℕ) : Bool :=
  d.any fun kv => kv.1 == k

/-- In-place `d[k].append(v)`. -/
def dict_append (d : List (ℕ × List ℤ)) (k : ℕ) (v : ℤ) : List (ℕ × List ℤ) :=
  d.map fun kv => if kv.1 == k then (kv.1, kv.2 ++ [v]) else kv

/-- Shallow embedding of `_update_history` (lines 175-189).  Evaluation
order of the source: read `qinfo.worker_id`, index the worker dict
(`KeyError` on an unregistered worker), read `qinfo.step_idx` and append;
append the qinfo to `query_qinfos`; copy each registered field onto its
history column (a missing field raises `AttributeError`; the iteration
order of the Python 2 dict is immaterial here because any missing field
gives the same exception); run the two child hooks (abstract no-ops in
the core); finally bump `num_succ_queries` when `qinfo.val` is not the
EVAL_ERROR sentinel.  Partial mutation performed by the source before an
exception is not modelled: on error the whole update is rejected, which is
faithful for every property stated below. -/
def update_history (s : BookKeeping) (q : QInfo) : Except String BookKeeping :=
  match q.worker_id with
  | none => .error "AttributeError"
  | some wid =>
    match dict_get s.history.job_idxs_of_workers wid with
    | .error e => .error e
    | .ok _ =>
      match q.step_idx with
      | none => .error "AttributeError"
      | some sidx =>
        match q.point with
        | none => .error "AttributeError"
        | some pt =>
          match q.val with
          | none => .error "AttributeError"
          | some v =>
            match q.true_val with
            | none => .error "AttributeError"
            | some tv =>
              match q.send_time with
              | none => .error "AttributeError"
              | some st =>
                match q.receive_time with
                | none => .error "AttributeError"
                | some rt =>
                  match q.eval_time with
                  | none => .error "AttributeError"
                  | some et =>
                    .ok
                      { history :=
                          { query_step_idxs := s.history.query_step_idxs ++ [sidx],
                            query_points := s.history.query_points ++ [pt],
                            query_vals := s.history.query_vals ++ [v],
                            query_true_vals := s.history.query_true_vals ++ [tv],
                            query_send_times := s.history.query_send_times ++ [st],
                            query_receive_times := s.history.query_receive_times ++ [rt],
                            query_eval_times := s.history.query_eval_times ++ [et],
                            query_worker_ids := s.history.query_worker_ids ++ [wid],
                            query_qinfos := s.history.query_qinfos ++ [q],
                            job_idxs_of_workers :=
                              dict_append s.history.job_idxs_of_workers wid sidx },
                        num_succ_queries :=
                          if v = QVal.evalError then s.num_succ_queries
                          else s.num_succ_queries + 1 }

/-- The empty history of `_set_up`, with one empty job list per worker
identity. -/
def init_book (worker_ids : List ℕ) : BookKeeping :=
  ⟨⟨[], [], [], [], [], [], [], [], [], worker_ids.map fun w => (w, [])⟩, 0⟩

/-- A run of `record` calls starting from the fresh history. -/
def record_all (worker_ids : List ℕ) (qs : List QInfo) :
    Except String BookKeeping :=
  qs.foldlM update_history (init_book worker_ids)

/-- The worker id, when present, is registered in the worker dict. -/
def worker_ok (s : BookKeeping) (q : QInfo) : Bool :=
  match q.worker_id with
  | none => true
  | some w => dict_has_key s.history.job_idxs_of_workers w

theorem dict_get_ok_of_has_key {d : List (ℕ × List ℤ)} {k : ℕ}
    (h : dict_has_key d k = true) : ∃ l, dict_get d k = .ok l := by
  unfold dict_has_key at h
  unfold dict_get
  cases hf : d.find? (fun kv => kv.1 == k) with
  | none =>
    rw [List.find?_eq_none] at hf
    rw [List.any_eq_true] at h
    rcases h with ⟨kv, hkv, hk⟩
    exact absurd hk (hf kv hkv)
  | some kv => exact ⟨kv.2, rfl⟩

theorem except_bind_ok {α β : Type} (a : α) (f : α → Except String β) :
    (Except.ok a >>= f) = f a := rfl

theorem except_bind_error {α β : Type} (e : String) (f : α → Except String β) :
    ((Except.error e : Except String α) >>= f) = .error e := rfl

/-- Successful updates append exactly the read value to `query_vals` and
bump the success counter exactly when it is not the sentinel. -/
theorem update_history_ok_vals {s : BookKeeping} {q : QInfo} {s' : BookKeeping}
    (h : update_history s q = .ok s') :
    ∃ v, q.val = some v ∧
      s'.history.query_vals = s.history.query_vals ++ [v] ∧
      s'.num_succ_queries =
        (if v = QVal.evalError then s.num_succ_queries
         else s.num_succ_queries + 1) := by
  unfold update_history at h
  cases hwid : q.worker_id with
  | none => simp [hwid] at h
  | some wid =>
  simp only [hwid] at h
  cases hd : dict_get s.history.job_idxs_of_workers wid with
  | error e => simp [hd] at h
  | ok jw =>
  simp only [hd] at h
  cases hsi : q.step_idx with
  | none => simp [hsi] at h
  | some si =>
  simp only [hsi] at h
  cases hpt : q.point with
  | none => simp [hpt] at h
  | some pt =>
  simp only [hpt] at h
  cases hv : q.val with
  | none => simp [hv] at h
  | some v =>
  simp only [hv] at h
  cases htv : q.true_val with
  | none => simp [htv] at h
  | some tv =>
  simp only [htv] at h
  cases hst : q.send_time with
  | none => simp [hst] at h
  | some st =>
  simp only [hst] at h
  cases hrt : q.receive_time with
  | none => simp [hrt] at h
  | some rt =>
  simp only [hrt] at h
  cases het : q.eval_time with
  | none => simp [het] at h
  | some et =>
  simp only [het] at h
  rw [Except.ok.injEq] at h
  subst h
  exact ⟨v, rfl, rfl, rfl⟩

theorem record_fold_count (qs : List QInfo) :
    ∀ s s' : BookKeeping,
      s.num_succ_queries =
        List.countP (fun v => !(v == QVal.evalError)) s.history.query_vals →
      List.foldlM update_history s qs = .ok s' →
      s'.num_succ_queries =
        List.countP (fun v => !(v == QVal.evalError)) s'.history.query_vals := by
  induction qs with
  | nil =>
    intro s s' hs h
    simp only [List.foldlM_nil] at h
    cases h
    exact hs
  | cons q qs ih =>
    intro s s' hs h
    rw [List.foldlM_cons] at h
    cases hu : update_history s q with
    | error e => rw [hu, except_bind_error] at h; cases h
    | ok s1 =>
      rw [hu, except_bind_ok] at h
      rcases update_history_ok_vals hu with ⟨v, hv, hvals, hn⟩
      refine ih s1 s' ?_ h
      rw [hn, hvals, List.countP_append, hs]
      by_cases hve : v = QVal.evalError
      · subst hve
        simp
      · simp [hve]

/-- C5 (confirmed): a successful `record` call increments
`num_succ_queries` exactly when the recorded `val` is not the EVAL_ERROR
sentinel; consequently after any successfully recorded sequence of
completions, `num_succ_queries` equals the number of history entries whose
`val` is not the sentinel. -/
theorem c5_num_succ_queries_counts_non_errors :
    (∀ (s : BookKeeping) (q : QInfo) (s' : BookKeeping),
      update_history s q = .ok s' →
      (s'.num_succ_queries = s.num_succ_queries + 1 ↔
        q.val ≠ some QVal.evalError)) ∧
    (∀ (worker_ids : List ℕ) (qs : List QInfo) (s' : BookKeeping),
      record_all worker_ids qs = .ok s' →
      s'.num_succ_queries =
        List.countP (fun v => !(v == QVal.evalError)) s'.history.query_vals) := by
  constructor
  · intro s q s' h
    rcases update_history_ok_vals h with ⟨v, hv, -, hn⟩
    rw [hv, hn]
    by_cases hve : v = QVal.evalError
    · subst hve
      simp
    · simp [hve]
  · intro worker_ids qs s' h
    exact record_fold_count qs (init_book worker_ids) s' (by simp [init_book]) h

/-- A concrete complete qinfo for the witnesses. -/
def demo_qinfo : QInfo :=
  ⟨some 1, some (.int 0), some (.num 3), some (.num 3), some 0, some 1, some 1,
    some 0⟩

/-- The bookkeeping state after recording `demo_qinfo` on the fresh
single-worker history. -/
def demo_book : BookKeeping :=
  ⟨⟨[1], [.int 0], [.num 3], [.num 3], [0], [1], [1], [0], [demo_qinfo],
    [(0, [1])]⟩, 1⟩

/-- C5 witness: one recorded completion with a non-error value increments
the counter, and the counter matches the non-error count of the resulting
history. -/
theorem c5_num_succ_queries_counts_non_errors_witness :
    (demo_book.num_succ_queries = (init_book [0]).num_succ_queries + 1 ↔
      demo_qinfo.val ≠ some QVal.evalError) ∧
    demo_book.num_succ_queries =
      List.countP (fun v => !(v == QVal.evalError)) demo_book.history.query_vals :=
  ⟨c5_num_succ_queries_counts_non_errors.1 (init_book [0]) demo_qinfo demo_book rfl,
   c5_num_succ_queries_counts_non_errors.2 [0] [demo_qinfo] demo_book rfl⟩

/-- C10 (counterexample): a qinfo lacking a registered field (`step_idx`)
does not always fail with an attribute error: when its `worker_id` is
present but not a registered worker, the worker-dict subscript raises
`KeyError` first. -/
theorem c10_unregistered_worker_keyerror :
    update_history (init_book [0])
      ⟨none, some (.int 0), some (.num 1), some (.num 1), some 0, some 1,
        some 1, some 1⟩ = .error "KeyError" := rfl

/-- C10 (amended): for every qinfo whose `worker_id`, when present, is a
registered worker: lacking any registered field makes the call fail with an
attribute error (a present but unregistered `worker_id` instead fails with
a key error before the other fields are read); when all registered fields
are present, the call succeeds and exactly one element is appended to each
of the eight registered history columns and to `query_qinfos`, so all
history columns stay equal in length. -/
theorem c10_update_history_missing_fields :
    (∀ (s : BookKeeping) (q : QInfo), worker_ok s q = true →
      q.isComplete = false →
      update_history s q = .error "AttributeError") ∧
    (∀ (s : BookKeeping) (si : ℤ) (pt : PyVal) (v tv : QVal) (st rt et : ℚ)
      (w : ℕ), dict_has_key s.history.job_idxs_of_workers w = true →
      ∃ s', update_history s
            ⟨some si, some pt, some v, some tv, some st, some rt, some et,
              some w⟩ = .ok s' ∧
        s'.history.query_step_idxs.length = s.history.query_step_idxs.length + 1 ∧
        s'.history.query_points.length = s.history.query_points.length + 1 ∧
        s'.history.query_vals.length = s.history.query_vals.length + 1 ∧
        s'.history.query_true_vals.length = s.history.query_true_vals.length + 1 ∧
        s'.history.query_send_times.length = s.history.query_send_times.length + 1 ∧
        s'.history.query_receive_times.length =
          s.history.query_receive_times.length + 1 ∧
        s'.history.query_eval_times.length = s.history.query_eval_times.length + 1 ∧
        s'.history.query_worker_ids.length = s.history.query_worker_ids.length + 1 ∧
        s'.history.query_qinfos.length = s.history.query_qinfos.length + 1) := by
  constructor
  · intro s q hw hc
    obtain ⟨si, pt, v, tv, st, rt, et, wid⟩ := q
    cases wid with
    | none => simp [update_history]
    | some w =>
      have hk : dict_has_key s.history.job_idxs_of_workers w = true := by
        simpa [worker_ok] using hw
      rcases dict_get_ok_of_has_key hk with ⟨jw, hjw⟩
      cases si <;> cases pt <;> cases v <;> cases tv <;> cases st <;>
        cases rt <;> cases et <;>
        first
          | (simp [update_history, hjw]; done)
          | simp [QInfo.isComplete] at hc
  · intro s si pt v tv st rt et w hk
    rcases dict_get_ok_of_has_key hk with ⟨jw, hjw⟩
    refine ⟨⟨⟨s.history.query_step_idxs ++ [si], s.history.query_points ++ [pt],
        s.history.query_vals ++ [v], s.history.query_true_vals ++ [tv],
        s.history.query_send_times ++ [st], s.history.query_receive_times ++ [rt],
        s.history.query_eval_times ++ [et], s.history.query_worker_ids ++ [w],
        s.history.query_qinfos ++ [⟨some si, some pt, some v, some tv, some st,
          some rt, some et, some w⟩],
        dict_append s.history.job_idxs_of_workers w si⟩,
      if v = QVal.evalError then s.num_succ_queries else s.num_succ_queries + 1⟩,
      ?_, ?_, ?_, ?_, ?_, ?_, ?_, ?_, ?_, ?_⟩
    · simp [update_history, hjw]
    all_goals simp

/-- C10 witness: a registered worker with a missing `val` field raises an
attribute error, and a complete qinfo on a registered worker appends one
element to every column. -/
theorem c10_update_history_missing_fields_witness :
    update_history (init_book [0])
      ⟨some 1, some (.int 0), none, some (.num 1), some 0, some 1, some 1,
        some 0⟩ = .error "AttributeError" ∧
    ∃ s', update_history (init_book [0])
          ⟨some 2, some (.int 5), some (.num 7), some (.num 7), some 0, some 1,
            some 1, some 0⟩ = .ok s' ∧
      s'.history.query_step_idxs.length =
        (init_book [0]).history.query_step_idxs.length + 1 ∧
      s'.history.query_points.length =
        (init_book [0]).history.query_points.length + 1 ∧
      s'.history.query_vals.length =
        (init_book [0]).history.query_vals.length + 1 ∧
      s'.history.query_true_vals.length =
        (init_book [0]).history.query_true_vals.length + 1 ∧
      s'.history.query_send_times.length =
        (init_book [0]).history.query_send_times.length + 1 ∧
      s'.history.query_receive_times.length =
        (init_book [0]).history.query_receive_times.length + 1 ∧
      s'.history.query_eval_times.length =
        (init_book [0]).history.query_eval_times.length + 1 ∧
      s'.history.query_worker_ids.length =
        (init_book [0]).history.query_worker_ids.length + 1 ∧
      s'.history.query_qinfos.length =
        (init_book [0]).history.query_qinfos.length + 1 :=
  ⟨c10_update_history_missing_fields.1 (init_book [0])
      ⟨some 1, some (.int 0), none, some (.num 1), some 0, some 1, some 1,
        some 0⟩ (by decide) (by decide),
   c10_update_history_missing_fields.2 (init_book [0]) 2 (.int 5) (.num 7)
      (.num 7) 0 1 1 0 (by decide)⟩
